import Mathlib

/-!
Shallow embedding of the `UniversalStore` reactive state container
(src: `UniversalStore` class, its hooks and the application wiring).

A JavaScript object is modelled as an ordered association list from
string keys to values of an arbitrary type `V` (JS objects preserve key
insertion order).  A listener callback is opaque to the store, so it is
modelled by an abstract code `cb : Nat` together with a behaviour map
`beh : Nat → Bool` saying whether invoking that callback throws.  Each
store operation returns, besides the new store, the trace of callback
invocations it performed; an `Event` records the listener identity, the
callback code, the canonical state the callback observes via
`getState()` at the moment it runs, and whether it raised.
-/

namespace MiApps

/-- A state snapshot: ordered mapping from field name to value,
modelling a JS object (`TState = Record<string, any>`). -/
abbrev Snap (V : Type) := List (String × V)

/-- Property lookup on a JS object: first (unique) matching key. -/
def lookupVal {V : Type} : Snap V → String → Option V
  | [], _ => none
  | p :: rest, k => if p.1 = k then some p.2 else lookupVal rest k

/-- Object spread `{...a, ...u}`: keys of `a` keep their position, with
the value overridden when `u` also has the key; keys of `u` absent from
`a` are appended in `u`-order. -/
def objSpread {V : Type} (a u : Snap V) : Snap V :=
  (a.map fun p =>
    match lookupVal u p.1 with
    | some v => (p.1, v)
    | none => p)
  ++ u.filter fun p => (lookupVal a p.1).isNone

/-- `interface StoreListener { num, type, func }`; `cb` is the abstract
code of the `func` closure. -/
structure Listener where
  num : Int
  type : String
  cb : Nat
deriving DecidableEq, Repr

/-- `interface StoreAction { type, data }`. -/
structure StoreAction (V : Type) where
  type : String
  data : V
deriving DecidableEq, Repr

/-- One observed callback invocation: which listener ran, its callback
code, the canonical state it would read through `getState()`, and
whether the callback threw. -/
structure Event (V : Type) where
  num : Int
  cb : Nat
  observed : Snap V
  raised : Bool
deriving DecidableEq, Repr

/-- Invoking `listener.func()`: throws exactly when the behaviour map
says the callback code throws. -/
def runCallback (beh : Nat → Bool) (cb : Nat) : Except Unit Unit :=
  if beh cb then .error () else .ok ()

/-- The body of `notifyListeners`' forEach: each call is wrapped in
`try { listener.func() } catch (error) { console.error(...) }`, so a
throwing callback is recorded and delivery continues. -/
def notifyLoop {V : Type} (beh : Nat → Bool) (observed : Snap V) :
    List Listener → List (Event V)
  | [] => []
  | l :: rest =>
    match runCallback beh l.cb with
    | .ok _ => ⟨l.num, l.cb, observed, false⟩ :: notifyLoop beh observed rest
    | .error _ => ⟨l.num, l.cb, observed, true⟩ :: notifyLoop beh observed rest

/-- `notifyListeners(actionType)`: filter the registry by watched field,
then invoke each callback under try/catch. -/
def notifyListeners {V : Type} (listeners : List Listener) (beh : Nat → Bool)
    (observed : Snap V) (actionType : String) : List (Event V) :=
  notifyLoop beh observed (listeners.filter fun l => decide (l.type = actionType))

/-- The forEach in `reset()`: `listener.func()` is NOT wrapped in
try/catch there, so a throw aborts the loop and propagates; the Bool
result records whether an exception escaped. -/
def forEachNotify {V : Type} (beh : Nat → Bool) (observed : Snap V) :
    List Listener → List (Event V) × Bool
  | [] => ([], false)
  | l :: rest =>
    match runCallback beh l.cb with
    | .ok _ =>
      let r := forEachNotify beh observed rest
      (⟨l.num, l.cb, observed, false⟩ :: r.1, r.2)
    | .error _ => ([⟨l.num, l.cb, observed, true⟩], true)

/-- `class UniversalStore<T>`: config's initial state, the canonical
state, and the listener registry. -/
structure Store (V : Type) where
  initialState : Snap V
  state : Snap V
  listeners : List Listener
deriving DecidableEq, Repr

/-- `constructor(config)`: `this.state = { ...config.initialState }`,
empty registry. -/
def Store.new {V : Type} (init : Snap V) : Store V :=
  ⟨init, init, []⟩

/-- `getState()`: returns a shallow copy of the canonical state (copying
is the identity on immutable values). -/
def Store.getState {V : Type} (st : Store V) : Snap V :=
  st.state

/-- `dispatch(action)`: if `this.state.hasOwnProperty(action.type)`, the
state becomes `{ ...this.state, [action.type]: action.data }`; then
`notifyListeners(action.type)` runs against the (possibly updated)
state, and the action is returned. -/
def Store.dispatch {V : Type} (st : Store V) (beh : Nat → Bool)
    (a : StoreAction V) : Store V × List (Event V) × StoreAction V :=
  let st2 :=
    if (lookupVal st.state a.type).isSome then
      { st with state := objSpread st.state [(a.type, a.data)] }
    else st
  (st2, notifyListeners st2.listeners beh st2.state a.type, a)

/-- `subscribe(listener)`: replace the first registry entry with the
same `num`, else push at the end (findIndex + assignment / push). -/
def subscribeList : List Listener → Listener → List Listener
  | [], l => [l]
  | x :: rest, l => if x.num = l.num then l :: rest else x :: subscribeList rest l

/-- `subscribe` on the store. -/
def Store.subscribe {V : Type} (st : Store V) (l : Listener) : Store V :=
  { st with listeners := subscribeList st.listeners l }

/-- `unsubscribe(listenerId)`: `this.listeners.filter(l => l.num !== listenerId)`. -/
def Store.unsubscribe {V : Type} (st : Store V) (id : Int) : Store V :=
  { st with listeners := st.listeners.filter fun l => decide (l.num ≠ id) }

/-- `batchUpdate(updates)`: `this.state = { ...this.state, ...updates }`,
then `Object.keys(updates).forEach(key => notifyListeners(key))`. -/
def Store.batchUpdate {V : Type} (st : Store V) (beh : Nat → Bool)
    (updates : Snap V) : Store V × List (Event V) :=
  let st2 := { st with state := objSpread st.state updates }
  (st2,
   (updates.map Prod.fst).foldr
     (fun k acc => notifyListeners st2.listeners beh st2.state k ++ acc) [])

/-- `reset()`: `this.state = { ...this.config.initialState }`, then
`this.listeners.forEach(listener => listener.func())` with no try/catch:
the Bool flags an exception escaping from `reset`. -/
def Store.reset {V : Type} (st : Store V) (beh : Nat → Bool) :
    Store V × List (Event V) × Bool :=
  let st2 := { st with state := st.initialState }
  let r := forEachNotify beh st2.state st.listeners
  (st2, r.1, r.2)

/-- The subscription pass of `useStore`'s mount effect: for each key of
the current snapshot, subscribe a listener with
`num = subscriptionId + key.length` (the same selector closure `cb` for
every key). -/
def mountUseStore {V : Type} (st : Store V) (subscriptionId : Int) (cb : Nat) :
    Store V :=
  (st.getState.map Prod.fst).foldl
    (fun s k => s.subscribe ⟨subscriptionId + (k.length : Int), k, cb⟩) st

/-- The cleanup pass of `useStore`'s effect: unsubscribe
`subscriptionId + key.length` for each key. -/
def unmountUseStore {V : Type} (st : Store V) (keys : List String)
    (subscriptionId : Int) : Store V :=
  keys.foldl (fun s k => s.unsubscribe (subscriptionId + (k.length : Int))) st

/-- A state-changing operation of the store's write surface. -/
inductive Op (V : Type) where
  | dispatchOp (a : StoreAction V)
  | batchOp (u : Snap V)
  | resetOp
deriving DecidableEq, Repr

/-- Run one write operation, keeping only the resulting store. -/
def runOp {V : Type} (beh : Nat → Bool) (st : Store V) : Op V → Store V
  | .dispatchOp a => (st.dispatch beh a).1
  | .batchOp u => (st.batchUpdate beh u).1
  | .resetOp => (st.reset beh).1

/-- Run a sequence of write operations. -/
def runOps {V : Type} (beh : Nat → Bool) (st : Store V) (ops : List (Op V)) : Store V :=
  ops.foldl (runOp beh) st

/-- The typing constraint on a write operation: a `batchUpdate` argument
has type `Partial<T>`, so its keys are field names of the state type. -/
def opKeysOk {V : Type} (initKeys : List String) : Op V → Prop
  | .batchOp u => ∀ p ∈ u, p.1 ∈ initKeys
  | _ => True

/-- Run a sequence of single-field dispatches, keeping the store. -/
def runDispatches {V : Type} (beh : Nat → Bool) (st : Store V)
    (acts : List (StoreAction V)) : Store V :=
  acts.foldl (fun s a => (s.dispatch beh a).1) st

/-- The value of the most recent dispatch of a field in a sequence, if any. -/
def lastDispatched {V : Type} : List (StoreAction V) → String → Option V
  | [], _ => none
  | a :: rest, k =>
    match lastDispatched rest k with
    | some v => some v
    | none => if a.type = k then some a.data else none

/-- Fold a sequence of (re-)subscriptions into the store. -/
def resubscribeAll {V : Type} (st : Store V) (ls : List Listener) : Store V :=
  ls.foldl Store.subscribe st

/-! ### Lookup and spread lemmas -/

theorem lookupVal_append {V : Type} (s t : Snap V) (k : String) :
    lookupVal (s ++ t) k =
      match lookupVal s k with
      | some v => some v
      | none => lookupVal t k := by
  induction s with
  | nil => simp [lookupVal]
  | cons p rest ih =>
    by_cases h : p.1 = k <;> simp [lookupVal, h, ih]

theorem lookupVal_isSome_iff {V : Type} (s : Snap V) (k : String) :
    (lookupVal s k).isSome ↔ k ∈ s.map Prod.fst := by
  induction s with
  | nil => simp [lookupVal]
  | cons p rest ih =>
    by_cases h : p.1 = k
    · subst h; simp [lookupVal]
    · have h2 : ¬(k = p.1) := fun he => h he.symm
      simp [lookupVal, h, h2, ih]

theorem lookupVal_eq_none_iff {V : Type} (s : Snap V) (k : String) :
    lookupVal s k = none ↔ k ∉ s.map Prod.fst := by
  rw [← lookupVal_isSome_iff, Option.isSome_iff_exists]
  cases lookupVal s k <;> simp

theorem lookupVal_of_mem_nodup {V : Type} {u : Snap V} {k : String} {v : V}
    (hnd : (u.map Prod.fst).Nodup) (hm : (k, v) ∈ u) :
    lookupVal u k = some v := by
  induction u with
  | nil => simp at hm
  | cons p rest ih =>
    simp only [List.map_cons, List.nodup_cons] at hnd
    rcases List.mem_cons.mp hm with h | h
    · subst h; simp [lookupVal]
    · have hk : k ∈ rest.map Prod.fst :=
        List.mem_map.mpr ⟨(k, v), h, rfl⟩
      have hne : p.1 ≠ k := fun he => hnd.1 (he ▸ hk)
      simp [lookupVal, hne, ih hnd.2 h]

theorem lookupVal_overridden {V : Type} (a u : Snap V) (k : String) :
    lookupVal
      (a.map fun p =>
        match lookupVal u p.1 with
        | some v => (p.1, v)
        | none => p) k =
      match lookupVal a k with
      | some v =>
        match lookupVal u k with
        | some w => some w
        | none => some v
      | none => none := by
  induction a with
  | nil => simp [lookupVal]
  | cons p rest ih =>
    by_cases h : p.1 = k
    · subst h
      cases hu : lookupVal u p.1 <;> simp [lookupVal, hu]
    · cases hu : lookupVal u p.1 <;> simp [lookupVal, h, hu, ih]

theorem overridden_keys {V : Type} (a u : Snap V) :
    (a.map fun p =>
      match lookupVal u p.1 with
      | some v => (p.1, v)
      | none => p).map Prod.fst = a.map Prod.fst := by
  induction a with
  | nil => rfl
  | cons p rest ih =>
    cases hu : lookupVal u p.1 <;> simp [hu, ih]

theorem lookupVal_filterNew_of_isSome {V : Type} (a u : Snap V) (k : String)
    (h : (lookupVal a k).isSome) :
    lookupVal (u.filter fun p => (lookupVal a p.1).isNone) k = none := by
  induction u with
  | nil => rfl
  | cons q rest ih =>
    cases ha : lookupVal a q.1 with
    | some w => simp [List.filter_cons, ha, ih]
    | none =>
      have hne : q.1 ≠ k := by
        intro he
        rw [he] at ha
        rw [ha] at h
        exact Bool.false_ne_true h
      simp [List.filter_cons, ha, lookupVal, hne, ih]

theorem lookupVal_filterNew_of_none {V : Type} (a u : Snap V) (k : String)
    (h : lookupVal a k = none) :
    lookupVal (u.filter fun p => (lookupVal a p.1).isNone) k = lookupVal u k := by
  induction u with
  | nil => rfl
  | cons q rest ih =>
    by_cases hk : q.1 = k
    · subst hk
      simp [List.filter_cons, h, lookupVal, ih]
    · cases ha : lookupVal a q.1 with
      | some w => simp [List.filter_cons, ha, lookupVal, hk, ih]
      | none => simp [List.filter_cons, ha, lookupVal, hk, ih]

theorem lookupVal_objSpread_mem {V : Type} {a u : Snap V} {k : String} {v : V}
    (hnd : (u.map Prod.fst).Nodup) (hm : (k, v) ∈ u) :
    lookupVal (objSpread a u) k = some v := by
  have hu : lookupVal u k = some v := lookupVal_of_mem_nodup hnd hm
  rw [objSpread, lookupVal_append, lookupVal_overridden]
  cases ha : lookupVal a k with
  | some w => simp [hu]
  | none => simp [lookupVal_filterNew_of_none a u k ha, hu]

theorem lookupVal_objSpread_notmem {V : Type} {a u : Snap V} {k : String}
    (h : k ∉ u.map Prod.fst) :
    lookupVal (objSpread a u) k = lookupVal a k := by
  have hu : lookupVal u k = none := (lookupVal_eq_none_iff u k).mpr h
  rw [objSpread, lookupVal_append, lookupVal_overridden]
  cases ha : lookupVal a k with
  | some w => simp [hu]
  | none => simp [lookupVal_filterNew_of_none a u k ha, hu]

theorem objSpread_keys {V : Type} (a u : Snap V)
    (h : ∀ p ∈ u, (lookupVal a p.1).isSome) :
    (objSpread a u).map Prod.fst = a.map Prod.fst := by
  have hnil : (u.filter fun p => (lookupVal a p.1).isNone) = [] := by
    rw [List.filter_eq_nil_iff]
    intro p hp
    have hs := h p hp
    cases ha : lookupVal a p.1 with
    | none => rw [ha] at hs; exact absurd hs (by simp)
    | some w => simp [ha]
  rw [objSpread, hnil, List.append_nil, overridden_keys]

/-! ### Notification lemmas -/

theorem notifyLoop_observed {V : Type} {beh : Nat → Bool} {obs : Snap V} :
    ∀ {ls : List Listener} {e : Event V}, e ∈ notifyLoop beh obs ls → e.observed = obs := by
  intro ls
  induction ls with
  | nil => intro e he; simp [notifyLoop] at he
  | cons l rest ih =>
    intro e he
    by_cases hb : beh l.cb <;>
      [skip; skip] <;>
      · simp [notifyLoop, runCallback, hb] at he
        rcases he with he | he
        · subst he; rfl
        · exact ih he

theorem notifyLoop_map_invoked {V : Type} (beh : Nat → Bool) (obs : Snap V)
    (ls : List Listener) :
    (notifyLoop beh obs ls).map (fun e => (e.num, e.cb))
      = ls.map fun l => (l.num, l.cb) := by
  induction ls with
  | nil => rfl
  | cons l rest ih =>
    by_cases hb : beh l.cb <;> simp [notifyLoop, runCallback, hb, ih]

theorem notifyLoop_map_num {V : Type} (beh : Nat → Bool) (obs : Snap V)
    (ls : List Listener) :
    (notifyLoop beh obs ls).map Event.num = ls.map Listener.num := by
  induction ls with
  | nil => rfl
  | cons l rest ih =>
    by_cases hb : beh l.cb <;> simp [notifyLoop, runCallback, hb, ih]

theorem notifyLoop_length {V : Type} (beh : Nat → Bool) (obs : Snap V)
    (ls : List Listener) :
    (notifyLoop beh obs ls).length = ls.length := by
  induction ls with
  | nil => rfl
  | cons l rest ih =>
    by_cases hb : beh l.cb <;> simp [notifyLoop, runCallback, hb, ih]

theorem notifyLoop_filter_num {V : Type} (beh : Nat → Bool) (obs : Snap V)
    (q : Int → Bool) (ls : List Listener) :
    (notifyLoop beh obs ls).filter (fun e => q e.num)
      = notifyLoop beh obs (ls.filter fun l => q l.num) := by
  induction ls with
  | nil => rfl
  | cons l rest ih =>
    by_cases hb : beh l.cb <;>
      by_cases hq : q l.num <;>
      simp [notifyLoop, runCallback, hb, List.filter_cons, hq, ih]

theorem forEachNotify_ok {V : Type} {beh : Nat → Bool} {obs : Snap V}
    {ls : List Listener} (h : ∀ l ∈ ls, beh l.cb = false) :
    forEachNotify beh obs ls = (ls.map fun l => ⟨l.num, l.cb, obs, false⟩, false) := by
  induction ls with
  | nil => rfl
  | cons l rest ih =>
    have hl : beh l.cb = false := h l (List.mem_cons_self l rest)
    have ihr := ih fun x hx => h x (List.mem_cons_of_mem l hx)
    simp [forEachNotify, runCallback, hl, ihr]

theorem forEachNotify_throw {V : Type} {beh : Nat → Bool} {obs : Snap V}
    (pre : List Listener) (l : Listener) (post : List Listener)
    (hpre : ∀ x ∈ pre, beh x.cb = false) (hl : beh l.cb = true) :
    forEachNotify beh obs (pre ++ l :: post)
      = ((pre.map fun x => ⟨x.num, x.cb, obs, false⟩) ++ [⟨l.num, l.cb, obs, true⟩],
         true) := by
  induction pre with
  | nil => simp [forEachNotify, runCallback, hl]
  | cons x rest ih =>
    have hx : beh x.cb = false := hpre x (List.mem_cons_self x rest)
    have ihr := ih fun y hy => hpre y (List.mem_cons_of_mem x hy)
    simp [forEachNotify, runCallback, hx, ihr]

/-! ### Registry lemmas -/

theorem subscribeList_of_notmem {ls : List Listener} {l : Listener}
    (h : l.num ∉ ls.map Listener.num) : subscribeList ls l = ls ++ [l] := by
  induction ls with
  | nil => rfl
  | cons x rest ih =>
    simp only [List.map_cons, List.mem_cons] at h
    push_neg at h
    have hx : x.num ≠ l.num := fun he => h.1 he.symm
    simp [subscribeList, hx, ih h.2]

theorem subscribeList_nums_of_mem {ls : List Listener} {l : Listener}
    (h : l.num ∈ ls.map Listener.num) :
    (subscribeList ls l).map Listener.num = ls.map Listener.num := by
  induction ls with
  | nil => simp at h
  | cons x rest ih =>
    by_cases hx : x.num = l.num
    · simp [subscribeList, hx]
    · have h2 : l.num ∈ rest.map Listener.num := by
        rcases List.mem_cons.mp h with h2 | h2
        · exact absurd h2.symm hx
        · exact h2
      simp [subscribeList, hx, ih h2]

theorem subscribeList_nodup {ls : List Listener} {l : Listener}
    (h : (ls.map Listener.num).Nodup) :
    ((subscribeList ls l).map Listener.num).Nodup := by
  induction ls with
  | nil => simp [subscribeList]
  | cons x rest ih =>
    simp only [List.map_cons, List.nodup_cons] at h
    by_cases hx : x.num = l.num
    · have hs : subscribeList (x :: rest) l = l :: rest := by
        simp [subscribeList, hx]
      rw [hs]
      simp only [List.map_cons, List.nodup_cons]
      exact ⟨by rw [← hx]; exact h.1, h.2⟩
    · have hs : subscribeList (x :: rest) l = x :: subscribeList rest l := by
        simp [subscribeList, hx]
      rw [hs]
      simp only [List.map_cons, List.nodup_cons]
      by_cases hm : l.num ∈ rest.map Listener.num
      · exact ⟨by rw [subscribeList_nums_of_mem hm]; exact h.1, ih h.2⟩
      · refine ⟨?_, ih h.2⟩
        rw [subscribeList_of_notmem hm]
        simp only [List.map_append, List.mem_append, List.map_cons, List.map_nil]
        rintro (hc | hc)
        · exact h.1 hc
        · simp at hc
          exact hx hc

theorem filter_num_of_mem_nodup {ls : List Listener} {x : Listener}
    (h : (ls.map Listener.num).Nodup) (hm : x ∈ ls) :
    ls.filter (fun l => decide (l.num = x.num)) = [x] := by
  induction ls with
  | nil => simp at hm
  | cons y rest ih =>
    simp only [List.map_cons, List.nodup_cons] at h
    rcases List.mem_cons.mp hm with he | he
    · subst he
      have hrest : rest.filter (fun l => decide (l.num = x.num)) = [] := by
        rw [List.filter_eq_nil_iff]
        intro z hz hez
        simp only [decide_eq_true_eq] at hez
        exact h.1 (hez ▸ List.mem_map.mpr ⟨z, hz, rfl⟩)
      simp [List.filter_cons, hrest]
    · have hy : y.num ≠ x.num := by
        intro hey
        exact h.1 (hey ▸ List.mem_map.mpr ⟨x, he, rfl⟩)
      simp [List.filter_cons, hy, ih h.2 he]

theorem subscribeList_filter_self {ls : List Listener} {l : Listener}
    (h : (ls.map Listener.num).Nodup) :
    (subscribeList ls l).filter (fun x => decide (x.num = l.num)) = [l] := by
  have hmem : l ∈ subscribeList ls l := by
    induction ls with
    | nil => simp [subscribeList]
    | cons x rest ih0 =>
      by_cases hx : x.num = l.num
      · simp [subscribeList, hx]
      · have : (rest.map Listener.num).Nodup := by
          simp only [List.map_cons, List.nodup_cons] at h
          exact h.2
        simp [subscribeList, hx, ih0 this]
  exact filter_num_of_mem_nodup (subscribeList_nodup h) hmem

/-! ### Key-set and state lemmas for the write surface -/

theorem dispatch_store_eq {V : Type} (st : Store V) (beh : Nat → Bool)
    (a : StoreAction V) :
    (st.dispatch beh a).1 =
      if (lookupVal st.state a.type).isSome then
        { st with state := objSpread st.state [(a.type, a.data)] }
      else st := rfl

theorem dispatch_initialState {V : Type} (st : Store V) (beh : Nat → Bool)
    (a : StoreAction V) :
    ((st.dispatch beh a).1).initialState = st.initialState := by
  rw [dispatch_store_eq]
  split <;> rfl

theorem dispatch_listeners {V : Type} (st : Store V) (beh : Nat → Bool)
    (a : StoreAction V) :
    ((st.dispatch beh a).1).listeners = st.listeners := by
  rw [dispatch_store_eq]
  split <;> rfl

theorem dispatch_state_keys {V : Type} (st : Store V) (beh : Nat → Bool)
    (a : StoreAction V) :
    ((st.dispatch beh a).1).state.map Prod.fst = st.state.map Prod.fst := by
  rw [dispatch_store_eq]
  by_cases h : (lookupVal st.state a.type).isSome
  · rw [if_pos h]
    exact objSpread_keys _ _ (by
      intro p hp
      simp only [List.mem_singleton] at hp
      rw [hp]
      exact h)
  · rw [if_neg h]

theorem dispatch_lookup {V : Type} (st : Store V) (beh : Nat → Bool)
    (a : StoreAction V) (h : (lookupVal st.state a.type).isSome) (k : String) :
    lookupVal ((st.dispatch beh a).1).state k =
      if a.type = k then some a.data else lookupVal st.state k := by
  rw [dispatch_store_eq, if_pos h]
  by_cases hk : a.type = k
  · subst hk
    rw [if_pos rfl]
    exact lookupVal_objSpread_mem (by simp) (by simp)
  · rw [if_neg hk]
    refine lookupVal_objSpread_notmem ?_
    simp only [List.map_cons, List.map_nil, List.mem_singleton]
    exact fun he => hk he.symm

theorem runOp_invariant {V : Type} (beh : Nat → Bool) (init : Snap V)
    (st : Store V) (op : Op V)
    (h1 : st.initialState = init)
    (h2 : st.state.map Prod.fst = init.map Prod.fst)
    (hop : opKeysOk (init.map Prod.fst) op) :
    (runOp beh st op).initialState = init ∧
      (runOp beh st op).state.map Prod.fst = init.map Prod.fst := by
  cases op with
  | dispatchOp a =>
    exact ⟨by rw [runOp, dispatch_initialState, h1],
           by rw [runOp, dispatch_state_keys, h2]⟩
  | batchOp u =>
    refine ⟨h1, ?_⟩
    have hsub : ∀ p ∈ u, (lookupVal st.state p.1).isSome := by
      intro p hp
      rw [lookupVal_isSome_iff, h2]
      exact hop p hp
    have : (runOp beh st (Op.batchOp u)).state = objSpread st.state u := rfl
    rw [this, objSpread_keys _ _ hsub, h2]
  | resetOp =>
    exact ⟨h1, by
      have : (runOp beh st Op.resetOp).state = st.initialState := rfl
      rw [this, h1]⟩

theorem runOps_invariant {V : Type} (beh : Nat → Bool) (init : Snap V)
    (ops : List (Op V)) :
    ∀ st : Store V, st.initialState = init →
      st.state.map Prod.fst = init.map Prod.fst →
      (∀ op ∈ ops, opKeysOk (init.map Prod.fst) op) →
      (runOps beh st ops).initialState = init ∧
        (runOps beh st ops).state.map Prod.fst = init.map Prod.fst := by
  induction ops with
  | nil => intro st h1 h2 _; exact ⟨h1, h2⟩
  | cons op rest ih =>
    intro st h1 h2 hops
    have hstep := runOp_invariant beh init st op h1 h2
      (hops op (List.mem_cons_self op rest))
    exact ih (runOp beh st op) hstep.1 hstep.2
      fun o ho => hops o (List.mem_cons_of_mem op ho)

theorem runDispatches_lookup {V : Type} (beh : Nat → Bool)
    (acts : List (StoreAction V)) :
    ∀ st : Store V, (∀ a ∈ acts, (lookupVal st.state a.type).isSome) →
      ∀ k : String,
        lookupVal (runDispatches beh st acts).state k =
          match lastDispatched acts k with
          | some v => some v
          | none => lookupVal st.state k := by
  induction acts with
  | nil => intro st _ k; rfl
  | cons a rest ih =>
    intro st h k
    have ha := h a (List.mem_cons_self a rest)
    have hkeys := dispatch_state_keys st beh a
    have hrest : ∀ b ∈ rest, (lookupVal ((st.dispatch beh a).1).state b.type).isSome := by
      intro b hb
      rw [lookupVal_isSome_iff, hkeys, ← lookupVal_isSome_iff]
      exact h b (List.mem_cons_of_mem a hb)
    have hrec := ih ((st.dispatch beh a).1) hrest k
    have hrun : runDispatches beh st (a :: rest)
        = runDispatches beh ((st.dispatch beh a).1) rest := rfl
    rw [hrun, hrec, dispatch_lookup st beh a ha k]
    simp only [lastDispatched]
    cases lastDispatched rest k with
    | some v => rfl
    | none => by_cases hak : a.type = k <;> simp [hak]

theorem mem_foldr_append {α β : Type} (f : α → List β) (keys : List α) {e : β}
    (he : e ∈ keys.foldr (fun k acc => f k ++ acc) []) :
    ∃ k ∈ keys, e ∈ f k := by
  induction keys with
  | nil => simp at he
  | cons k rest ih =>
    simp only [List.foldr_cons, List.mem_append] at he
    rcases he with he | he
    · exact ⟨k, List.mem_cons_self k rest, he⟩
    · obtain ⟨k2, hk2, he2⟩ := ih he
      exact ⟨k2, List.mem_cons_of_mem k hk2, he2⟩

theorem map_foldr_append {α β γ : Type} (g : β → γ) (f : α → List β)
    (keys : List α) :
    (keys.foldr (fun k acc => f k ++ acc) []).map g
      = keys.foldr (fun k acc => (f k).map g ++ acc) [] := by
  induction keys with
  | nil => rfl
  | cons k rest ih => simp [ih]

theorem foldr_append_congr {α β : Type} (f g : α → List β) (keys : List α)
    (h : ∀ k ∈ keys, f k = g k) :
    keys.foldr (fun k acc => f k ++ acc) []
      = keys.foldr (fun k acc => g k ++ acc) [] := by
  induction keys with
  | nil => rfl
  | cons k rest ih =>
    simp only [List.foldr_cons]
    rw [h k (List.mem_cons_self k rest),
        ih fun k2 hk2 => h k2 (List.mem_cons_of_mem k hk2)]

theorem filter_swap {α : Type} (p q : α → Bool) (l : List α) :
    (l.filter p).filter q = (l.filter q).filter p := by
  induction l with
  | nil => rfl
  | cons x rest ih =>
    by_cases hp : p x <;> by_cases hq : q x <;>
      simp [List.filter_cons, hp, hq, ih]

/-! ### Claims -/

/-- C1: `batchUpdate` installs every write of the partial snapshot as a
single state transition (`{...state, ...updates}`), then notifies once
per key of the partial snapshot, in that snapshot's key order, against
the unchanged registry; every callback invoked during the pass observes
a state in which every key of the batch already holds its new value. -/
theorem claim_C1 {V : Type} (st : Store V) (beh : Nat → Bool) (u : Snap V)
    (hnd : (u.map Prod.fst).Nodup) :
    (st.batchUpdate beh u).1.state = objSpread st.state u
    ∧ (st.batchUpdate beh u).2
        = (u.map Prod.fst).foldr
            (fun k acc =>
              notifyListeners st.listeners beh (objSpread st.state u) k ++ acc) []
    ∧ ∀ e ∈ (st.batchUpdate beh u).2, ∀ p ∈ u,
        lookupVal e.observed p.1 = some p.2 := by
  refine ⟨rfl, rfl, ?_⟩
  intro e he p hp
  obtain ⟨k, _, hek⟩ := mem_foldr_append
    (fun k => notifyListeners st.listeners beh (objSpread st.state u) k)
    (u.map Prod.fst) he
  have hobs : e.observed = objSpread st.state u := notifyLoop_observed hek
  rw [hobs]
  exact lookupVal_objSpread_mem hnd hp

theorem claim_C1_witness :
    (([(("a" : String), (10:Nat)), ("b", 20)].map Prod.fst).Nodup)
    ∧ (((Store.mk [("a", (1:Nat)), ("b", 2)] [("a", 1), ("b", 2)]
          [⟨1, "a", 0⟩, ⟨2, "b", 1⟩]).batchUpdate (fun _ => false)
          [("a", 10), ("b", 20)]).1.state
        = objSpread [("a", 1), ("b", 2)] [("a", 10), ("b", 20)]
      ∧ ((Store.mk [("a", (1:Nat)), ("b", 2)] [("a", 1), ("b", 2)]
          [⟨1, "a", 0⟩, ⟨2, "b", 1⟩]).batchUpdate (fun _ => false)
          [("a", 10), ("b", 20)]).2
        = ([("a", (10:Nat)), ("b", 20)].map Prod.fst).foldr
            (fun k acc =>
              notifyListeners [⟨1, "a", 0⟩, ⟨2, "b", 1⟩] (fun _ => false)
                (objSpread [("a", 1), ("b", 2)] [("a", 10), ("b", 20)]) k ++ acc) []
      ∧ ∀ e ∈ ((Store.mk [("a", (1:Nat)), ("b", 2)] [("a", 1), ("b", 2)]
          [⟨1, "a", 0⟩, ⟨2, "b", 1⟩]).batchUpdate (fun _ => false)
          [("a", 10), ("b", 20)]).2, ∀ p ∈ [(("a" : String), (10:Nat)), ("b", 20)],
        lookupVal e.observed p.1 = some p.2) :=
  ⟨by decide,
   claim_C1 (Store.mk [("a", 1), ("b", 2)] [("a", 1), ("b", 2)]
      [⟨1, "a", 0⟩, ⟨2, "b", 1⟩]) (fun _ => false) [("a", 10), ("b", 20)]
      (by decide)⟩

/-- C2: over any sequence of `dispatch`, `batchUpdate` and `reset`
operations (each `batchUpdate` argument typed `Partial<T>`, i.e. its
keys drawn from the initial state's field names), the key list of the
canonical state stays exactly the key list of the initial state: no
operation adds or removes a field. -/
theorem claim_C2 {V : Type} (init : Snap V) (beh : Nat → Bool)
    (ops : List (Op V))
    (h : ∀ op ∈ ops, opKeysOk (init.map Prod.fst) op) :
    (runOps beh (Store.new init) ops).state.map Prod.fst = init.map Prod.fst :=
  (runOps_invariant beh init ops (Store.new init) rfl rfl h).2

theorem claim_C2_witness :
    (∀ op ∈ ([Op.dispatchOp ⟨"a", 5⟩, Op.dispatchOp ⟨"zzz", 9⟩,
        Op.batchOp [("b", 7)], Op.resetOp] : List (Op Nat)),
      opKeysOk ([(("a" : String), (1:Nat)), ("b", 2)].map Prod.fst) op)
    ∧ (runOps (fun _ => false) (Store.new [("a", (1:Nat)), ("b", 2)])
        [Op.dispatchOp ⟨"a", 5⟩, Op.dispatchOp ⟨"zzz", 9⟩,
         Op.batchOp [("b", 7)], Op.resetOp]).state.map Prod.fst
      = [(("a" : String), (1:Nat)), ("b", 2)].map Prod.fst :=
  ⟨by
    intro op hop
    simp only [List.mem_cons, List.not_mem_nil, or_false] at hop
    rcases hop with rfl | rfl | rfl | rfl <;> simp [opKeysOk],
   claim_C2 [("a", 1), ("b", 2)] (fun _ => false)
      [Op.dispatchOp ⟨"a", 5⟩, Op.dispatchOp ⟨"zzz", 9⟩,
       Op.batchOp [("b", 7)], Op.resetOp]
      (by
        intro op hop
        simp only [List.mem_cons, List.not_mem_nil, or_false] at hop
        rcases hop with rfl | rfl | rfl | rfl <;> simp [opKeysOk])⟩

/-- C4: after a sequence of single-field dispatches whose field names
are all keys of the initial state, `getState()` holds, at each field,
the value of its most recent dispatch, and the initial value where the
field was never dispatched. -/
theorem claim_C4 {V : Type} (init : Snap V) (beh : Nat → Bool)
    (acts : List (StoreAction V))
    (hk : ∀ a ∈ acts, (lookupVal init a.type).isSome) (k : String) :
    lookupVal (runDispatches beh (Store.new init) acts).getState k =
      match lastDispatched acts k with
      | some v => some v
      | none => lookupVal init k :=
  runDispatches_lookup beh acts (Store.new init) hk k

theorem claim_C4_witness :
    (∀ a ∈ ([⟨"a", 5⟩, ⟨"b", 6⟩, ⟨"a", 7⟩] : List (StoreAction Nat)),
      (lookupVal [("a", (1:Nat)), ("b", 2), ("c", 3)] a.type).isSome)
    ∧ lookupVal (runDispatches (fun _ => false)
        (Store.new [("a", (1:Nat)), ("b", 2), ("c", 3)])
        [⟨"a", 5⟩, ⟨"b", 6⟩, ⟨"a", 7⟩]).getState "a"
      = match lastDispatched ([⟨"a", 5⟩, ⟨"b", 6⟩, ⟨"a", 7⟩] : List (StoreAction Nat)) "a" with
        | some v => some v
        | none => lookupVal [("a", (1:Nat)), ("b", 2), ("c", 3)] "a" :=
  ⟨by decide,
   claim_C4 [("a", 1), ("b", 2), ("c", 3)] (fun _ => false)
      [⟨"a", 5⟩, ⟨"b", 6⟩, ⟨"a", 7⟩] (by decide) "a"⟩

/-- C3 counterexample: on state `{auth: 0}`, dispatching the unknown
field `"unknownField"` while a listener is registered with watched field
`"unknownField"` does invoke that listener's callback, so the claim that
no listener callback is invoked "whatever listeners are registered" is
false on the code. -/
theorem claim_C3_counterexample :
    ((Store.mk [("auth", (0:Nat))] [("auth", 0)]
        [⟨1, "unknownField", 0⟩]).dispatch (fun _ => false)
        ⟨"unknownField", 42⟩).2.1 ≠ [] := by decide

/-- C3 (amended): dispatch of a field name absent from the state's keys
leaves the store unchanged and still returns the submitted action; the
notification pass still runs for the dispatched name, so exactly the
listeners whose watched field equals that unknown name are invoked — in
particular no listener at all when none watches that name. -/
theorem claim_C3 {V : Type} (st : Store V) (beh : Nat → Bool)
    (a : StoreAction V) (h : lookupVal st.state a.type = none) :
    (st.dispatch beh a).1 = st
    ∧ (st.dispatch beh a).2.2 = a
    ∧ (st.dispatch beh a).2.1
        = notifyLoop beh st.state
            (st.listeners.filter fun l => decide (l.type = a.type))
    ∧ ((∀ l ∈ st.listeners, l.type ≠ a.type) → (st.dispatch beh a).2.1 = []) := by
  have hstore : (st.dispatch beh a).1 = st := by
    rw [dispatch_store_eq, if_neg (by simp [h])]
  have htrace : (st.dispatch beh a).2.1
      = notifyListeners (st.dispatch beh a).1.listeners beh
          (st.dispatch beh a).1.state a.type := rfl
  have htrace2 : (st.dispatch beh a).2.1
      = notifyLoop beh st.state
          (st.listeners.filter fun l => decide (l.type = a.type)) := by
    rw [htrace, hstore]; rfl
  refine ⟨hstore, rfl, htrace2, ?_⟩
  intro hnone
  rw [htrace2]
  have hnil : (st.listeners.filter fun l => decide (l.type = a.type)) = [] := by
    rw [List.filter_eq_nil_iff]
    intro l hl hdec
    simp only [decide_eq_true_eq] at hdec
    exact hnone l hl hdec
  rw [hnil]
  rfl

theorem claim_C3_witness :
    (lookupVal [("auth", (0:Nat))] "unknown" = none)
    ∧ (((Store.mk [("auth", (0:Nat))] [("auth", 0)]
          [⟨1, "auth", 0⟩]).dispatch (fun _ => false) ⟨"unknown", 42⟩).1
        = Store.mk [("auth", (0:Nat))] [("auth", 0)] [⟨1, "auth", 0⟩]
      ∧ ((Store.mk [("auth", (0:Nat))] [("auth", 0)]
          [⟨1, "auth", 0⟩]).dispatch (fun _ => false) ⟨"unknown", 42⟩).2.2
        = ⟨"unknown", 42⟩
      ∧ ((Store.mk [("auth", (0:Nat))] [("auth", 0)]
          [⟨1, "auth", 0⟩]).dispatch (fun _ => false) ⟨"unknown", 42⟩).2.1
        = notifyLoop (fun _ => false) [("auth", 0)]
            ([⟨1, "auth", 0⟩].filter fun l => decide (l.type = "unknown"))
      ∧ ((∀ l ∈ [(⟨1, "auth", 0⟩ : Listener)], l.type ≠ "unknown") →
          ((Store.mk [("auth", (0:Nat))] [("auth", 0)]
            [⟨1, "auth", 0⟩]).dispatch (fun _ => false) ⟨"unknown", 42⟩).2.1 = [])) :=
  ⟨by decide,
   claim_C3 (Store.mk [("auth", 0)] [("auth", 0)] [⟨1, "auth", 0⟩])
      (fun _ => false) ⟨"unknown", 42⟩ (by decide)⟩

/-- C5 counterexample: `reset()` on a store with two listeners whose
first callback throws: the exception escapes `reset` (it does not return
normally) and the second listener is never invoked, so the claim fails
for the notification pass triggered by `reset`. -/
theorem claim_C5_counterexample :
    (((Store.mk [("a", (0:Nat))] [("a", 0)]
        [⟨1, "a", 0⟩, ⟨2, "a", 1⟩]).reset (fun c => decide (c = 0))).2.2 = true)
    ∧ ((((Store.mk [("a", (0:Nat))] [("a", 0)]
        [⟨1, "a", 0⟩, ⟨2, "a", 1⟩]).reset
          (fun c => decide (c = 0))).2.1.map Event.num) = [1]) := by
  decide

/-- C5 (amended): for the notification passes of `dispatch` and
`batchUpdate` a throwing callback is caught, every remaining matching
listener is still invoked and the operation returns normally — the
invocation sequence is exactly the matching registry entries whatever
the callbacks' throwing behaviour; `reset`, however, runs callbacks
without a catch: the first throwing callback ends delivery (later
listeners are not invoked) and the exception propagates out of `reset`,
the state restoration having already taken effect. -/
theorem claim_C5 {V : Type} (st : Store V) (beh : Nat → Bool)
    (a : StoreAction V) (u : Snap V)
    (pre : List Listener) (l : Listener) (post : List Listener)
    (hls : st.listeners = pre ++ l :: post)
    (hpre : ∀ x ∈ pre, beh x.cb = false)
    (hl : beh l.cb = true) :
    ((st.dispatch beh a).2.1.map (fun e => (e.num, e.cb))
        = (st.listeners.filter fun x => decide (x.type = a.type)).map
            fun x => (x.num, x.cb))
    ∧ ((st.batchUpdate beh u).2.map (fun e => (e.num, e.cb))
        = (u.map Prod.fst).foldr
            (fun k acc =>
              ((st.listeners.filter fun x => decide (x.type = k)).map
                fun x => (x.num, x.cb)) ++ acc) [])
    ∧ ((st.reset beh).2.1
        = (pre.map fun x => ⟨x.num, x.cb, st.initialState, false⟩)
          ++ [⟨l.num, l.cb, st.initialState, true⟩])
    ∧ (st.reset beh).2.2 = true := by
  refine ⟨?_, ?_, ?_, ?_⟩
  · have h1 : (st.dispatch beh a).2.1
        = notifyLoop beh ((st.dispatch beh a).1.state)
            ((st.dispatch beh a).1.listeners.filter
              fun x => decide (x.type = a.type)) := rfl
    rw [h1, dispatch_listeners, notifyLoop_map_invoked]
  · have h2 : (st.batchUpdate beh u).2
        = (u.map Prod.fst).foldr
            (fun k acc =>
              notifyLoop beh (objSpread st.state u)
                (st.listeners.filter fun x => decide (x.type = k)) ++ acc) [] := rfl
    rw [h2, map_foldr_append]
    exact foldr_append_congr _ _ _ fun k _ => notifyLoop_map_invoked _ _ _
  · have h3 : (st.reset beh).2.1
        = (forEachNotify beh st.initialState st.listeners).1 := rfl
    rw [h3, hls, forEachNotify_throw pre l post hpre hl]
  · have h4 : (st.reset beh).2.2
        = (forEachNotify beh st.initialState st.listeners).2 := rfl
    rw [h4, hls, forEachNotify_throw pre l post hpre hl]

theorem claim_C5_witness :
    ((Store.mk [("a", (0:Nat))] [("a", 0)]
        [⟨1, "a", 0⟩, ⟨2, "a", 1⟩] : Store Nat).listeners
      = [] ++ (⟨1, "a", 0⟩ : Listener) :: [⟨2, "a", 1⟩])
    ∧ (∀ x ∈ ([] : List Listener), (fun c => decide (c = 0)) x.cb = false)
    ∧ ((fun c => decide (c = 0)) (Listener.cb ⟨1, "a", 0⟩) = true)
    ∧ ((Store.mk [("a", (0:Nat))] [("a", 0)]
        [⟨1, "a", 0⟩, ⟨2, "a", 1⟩]).reset (fun c => decide (c = 0))).2.2 = true :=
  ⟨by decide, by decide, by decide,
   (claim_C5 (Store.mk [("a", 0)] [("a", 0)] [⟨1, "a", 0⟩, ⟨2, "a", 1⟩])
      (fun c => decide (c = 0)) ⟨"a", 9⟩ [("a", 3)]
      [] ⟨1, "a", 0⟩ [⟨2, "a", 1⟩] (by decide) (by decide) (by decide)).2.2.2⟩

/-- C6: with no registered callback throwing, `reset()` restores the
canonical state to the originally configured initial state and invokes
every currently registered listener's callback exactly once, in registry
order, regardless of which field each listener watches, and no exception
escapes. -/
theorem claim_C6 {V : Type} (st : Store V) (beh : Nat → Bool)
    (h : ∀ l ∈ st.listeners, beh l.cb = false) :
    (st.reset beh).1.state = st.initialState
    ∧ (st.reset beh).2.1.map (fun e => (e.num, e.cb))
        = st.listeners.map (fun l => (l.num, l.cb))
    ∧ (st.reset beh).2.2 = false := by
  have hfe := @forEachNotify_ok V beh st.initialState st.listeners h
  refine ⟨rfl, ?_, ?_⟩
  · have h1 : (st.reset beh).2.1
        = (forEachNotify beh st.initialState st.listeners).1 := rfl
    rw [h1, hfe]
    simp
  · have h2 : (st.reset beh).2.2
        = (forEachNotify beh st.initialState st.listeners).2 := rfl
    rw [h2, hfe]

theorem claim_C6_witness :
    (∀ l ∈ ([⟨1, "a", 0⟩, ⟨2, "zzz", 1⟩] : List Listener),
      (fun _ => false) l.cb = false)
    ∧ (((Store.mk [("a", (0:Nat)), ("b", 1)] [("a", 5), ("b", 6)]
          [⟨1, "a", 0⟩, ⟨2, "zzz", 1⟩]).reset (fun _ => false)).1.state
        = [("a", (0:Nat)), ("b", 1)]
      ∧ (((Store.mk [("a", (0:Nat)), ("b", 1)] [("a", 5), ("b", 6)]
          [⟨1, "a", 0⟩, ⟨2, "zzz", 1⟩]).reset (fun _ => false)).2.1.map
            (fun e => (e.num, e.cb)))
        = ([⟨1, "a", 0⟩, ⟨2, "zzz", 1⟩] : List Listener).map
            (fun l => (l.num, l.cb))
      ∧ ((Store.mk [("a", (0:Nat)), ("b", 1)] [("a", 5), ("b", 6)]
          [⟨1, "a", 0⟩, ⟨2, "zzz", 1⟩]).reset (fun _ => false)).2.2 = false) :=
  ⟨by decide,
   claim_C6 (Store.mk [("a", 0), ("b", 1)] [("a", 5), ("b", 6)]
      [⟨1, "a", 0⟩, ⟨2, "zzz", 1⟩]) (fun _ => false) (by decide)⟩

theorem resubscribeAll_spec {V : Type} (lastL : Listener) :
    ∀ (olds : List Listener) (st : Store V),
      (st.listeners.map Listener.num).Nodup →
      (∀ l ∈ olds, l.num = lastL.num) →
      ((resubscribeAll st (olds ++ [lastL])).listeners.filter
          (fun x => decide (x.num = lastL.num)) = [lastL])
      ∧ ((resubscribeAll st (olds ++ [lastL])).listeners.map Listener.num).Nodup := by
  intro olds
  induction olds with
  | nil =>
    intro st hnd _
    exact ⟨subscribeList_filter_self hnd, subscribeList_nodup hnd⟩
  | cons r rest ih =>
    intro st hnd hall
    exact ih (st.subscribe r) (subscribeList_nodup hnd)
      fun l hl => hall l (List.mem_cons_of_mem r hl)

/-- C7: re-subscribing any number of times with one identity (the folded
`olds ++ [lastL]`, all carrying the same `num`) leaves exactly one
registry record with that identity, namely the last subscribed listener
(its callback and watched field replaced, no duplicate entry); a
dispatch to the latest watched field then invokes the latest callback
exactly once. -/
theorem claim_C7 {V : Type} (st : Store V) (beh : Nat → Bool) (d : V)
    (olds : List Listener) (lastL : Listener)
    (hw : (st.listeners.map Listener.num).Nodup)
    (hall : ∀ l ∈ olds, l.num = lastL.num) :
    ((resubscribeAll st (olds ++ [lastL])).listeners.filter
        (fun x => decide (x.num = lastL.num)) = [lastL])
    ∧ ((((resubscribeAll st (olds ++ [lastL])).dispatch beh
          ⟨lastL.type, d⟩).2.1.filter
          (fun e => decide (e.num = lastL.num))).map (fun e => e.cb)
        = [lastL.cb]) := by
  obtain ⟨hfilter, hnodup⟩ := resubscribeAll_spec lastL olds st hw hall
  refine ⟨hfilter, ?_⟩
  have h1 : ((resubscribeAll st (olds ++ [lastL])).dispatch beh
        ⟨lastL.type, d⟩).2.1
      = notifyLoop beh
          (((resubscribeAll st (olds ++ [lastL])).dispatch beh
            ⟨lastL.type, d⟩).1.state)
          (((resubscribeAll st (olds ++ [lastL])).dispatch beh
            ⟨lastL.type, d⟩).1.listeners.filter
            fun x => decide (x.type = lastL.type)) := rfl
  rw [h1, dispatch_listeners,
      notifyLoop_filter_num _ _ (fun m => decide (m = lastL.num)),
      filter_swap, hfilter]
  by_cases hb : beh lastL.cb <;>
    simp [List.filter_cons, notifyLoop, runCallback, hb]

theorem claim_C7_witness :
    (((Store.mk [("f", (0:Nat))] [("f", 0)] [⟨9, "zzz", 5⟩]).listeners.map
        Listener.num).Nodup)
    ∧ (∀ l ∈ ([⟨1, "old", 3⟩, ⟨1, "older", 4⟩] : List Listener),
        l.num = Listener.num ⟨1, "f", 8⟩)
    ∧ (((resubscribeAll (Store.mk [("f", (0:Nat))] [("f", 0)] [⟨9, "zzz", 5⟩])
          ([⟨1, "old", 3⟩, ⟨1, "older", 4⟩] ++ [⟨1, "f", 8⟩])).listeners.filter
          (fun x => decide (x.num = Listener.num ⟨1, "f", 8⟩)) = [⟨1, "f", 8⟩])
      ∧ ((((resubscribeAll (Store.mk [("f", (0:Nat))] [("f", 0)] [⟨9, "zzz", 5⟩])
            ([⟨1, "old", 3⟩, ⟨1, "older", 4⟩] ++ [⟨1, "f", 8⟩])).dispatch
            (fun _ => false) ⟨Listener.type ⟨1, "f", 8⟩, 2⟩).2.1.filter
            (fun e => decide (e.num = Listener.num ⟨1, "f", 8⟩))).map
            (fun e => e.cb)
          = [Listener.cb ⟨1, "f", 8⟩])) :=
  ⟨by decide, by decide,
   claim_C7 (Store.mk [("f", 0)] [("f", 0)] [⟨9, "zzz", 5⟩]) (fun _ => false)
      2 [⟨1, "old", 3⟩, ⟨1, "older", 4⟩] ⟨1, "f", 8⟩ (by decide) (by decide)⟩

/-- C8: while a listener is registered (with identities unique in the
registry), each dispatch of its watched field invokes it exactly once;
after `unsubscribe` of its identity a dispatch of the same field invokes
it zero times; and unsubscribing an identity not present in the registry
leaves the store unchanged. -/
theorem claim_C8 {V : Type} (st : Store V) (beh : Nat → Bool)
    (x : Listener) (d d2 : V)
    (hw : (st.listeners.map Listener.num).Nodup)
    (hmem : x ∈ st.listeners) :
    (((st.dispatch beh ⟨x.type, d⟩).2.1.filter
        (fun e => decide (e.num = x.num))).length = 1)
    ∧ ((((st.unsubscribe x.num).dispatch beh ⟨x.type, d2⟩).2.1.filter
        (fun e => decide (e.num = x.num))).length = 0)
    ∧ (∀ m : Int, (∀ l ∈ st.listeners, l.num ≠ m) → st.unsubscribe m = st) := by
  refine ⟨?_, ?_, ?_⟩
  · have h1 : (st.dispatch beh ⟨x.type, d⟩).2.1
        = notifyLoop beh ((st.dispatch beh ⟨x.type, d⟩).1.state)
            ((st.dispatch beh ⟨x.type, d⟩).1.listeners.filter
              fun l => decide (l.type = x.type)) := rfl
    rw [h1, dispatch_listeners,
        notifyLoop_filter_num _ _ (fun m => decide (m = x.num)),
        filter_swap, filter_num_of_mem_nodup hw hmem, notifyLoop_length]
    simp [List.filter_cons]
  · have h2 : ((st.unsubscribe x.num).dispatch beh ⟨x.type, d2⟩).2.1
        = notifyLoop beh (((st.unsubscribe x.num).dispatch beh ⟨x.type, d2⟩).1.state)
            (((st.unsubscribe x.num).dispatch beh ⟨x.type, d2⟩).1.listeners.filter
              fun l => decide (l.type = x.type)) := rfl
    have hnil : ((st.listeners.filter fun l => decide (l.num ≠ x.num)).filter
        fun l => decide (l.num = x.num)) = [] := by
      rw [List.filter_eq_nil_iff]
      intro l hl hdec
      simp only [decide_eq_true_eq] at hdec
      have := (List.mem_filter.mp hl).2
      simp only [decide_eq_true_eq] at this
      exact this hdec
    rw [h2, dispatch_listeners,
        notifyLoop_filter_num _ _ (fun m => decide (m = x.num))]
    have hunsub : (st.unsubscribe x.num).listeners
        = st.listeners.filter fun l => decide (l.num ≠ x.num) := rfl
    rw [hunsub, filter_swap (fun l : Listener => decide (l.type = x.type))
        (fun l : Listener => decide (l.num = x.num)), hnil]
    rfl
  · intro m hm
    have hself : st.listeners.filter (fun l => decide (l.num ≠ m)) = st.listeners :=
      List.filter_eq_self.mpr fun l hl => by simp [hm l hl]
    show { st with listeners := st.listeners.filter fun l => decide (l.num ≠ m) } = st
    rw [hself]

theorem claim_C8_witness :
    (((Store.mk [("f", (0:Nat))] [("f", 0)]
        [⟨1, "f", 0⟩, ⟨2, "f", 1⟩]).listeners.map Listener.num).Nodup)
    ∧ ((⟨1, "f", 0⟩ : Listener) ∈ (Store.mk [("f", (0:Nat))] [("f", 0)]
        [⟨1, "f", 0⟩, ⟨2, "f", 1⟩]).listeners)
    ∧ ((((Store.mk [("f", (0:Nat))] [("f", 0)]
          [⟨1, "f", 0⟩, ⟨2, "f", 1⟩]).dispatch (fun _ => false)
          ⟨Listener.type ⟨1, "f", 0⟩, 7⟩).2.1.filter
          (fun e => decide (e.num = Listener.num ⟨1, "f", 0⟩))).length = 1)
    ∧ (((((Store.mk [("f", (0:Nat))] [("f", 0)]
          [⟨1, "f", 0⟩, ⟨2, "f", 1⟩]).unsubscribe
            (Listener.num ⟨1, "f", 0⟩)).dispatch (fun _ => false)
          ⟨Listener.type ⟨1, "f", 0⟩, 8⟩).2.1.filter
          (fun e => decide (e.num = Listener.num ⟨1, "f", 0⟩))).length = 0) :=
  ⟨by decide, by decide,
   (claim_C8 (Store.mk [("f", 0)] [("f", 0)] [⟨1, "f", 0⟩, ⟨2, "f", 1⟩])
      (fun _ => false) ⟨1, "f", 0⟩ 7 8 (by decide) (by decide)).1,
   (claim_C8 (Store.mk [("f", 0)] [("f", 0)] [⟨1, "f", 0⟩, ⟨2, "f", 1⟩])
      (fun _ => false) ⟨1, "f", 0⟩ 7 8 (by decide) (by decide)).2.1⟩

/-- C9: evaluation of the mount pass of `useStore` at a snapshot with
the two equal-length field names `"auth"` and `"back"` and base id 100:
both per-field listeners get `num = 100 + 4 = 104`, so the second
`subscribe` replaces the first and the registry ends with a single
record (watching `"back"`) instead of one record per field — the
identity scheme `subscriptionId + key.length` collides, contradicting
the code's own comment that it is a unique id per field. -/
theorem claim_C9_eval :
    (mountUseStore (Store.new [("auth", (0:Nat)), ("back", 0)]) 100 7).listeners
      = [⟨104, "back", 7⟩] := by decide

/-- C10: re-subscribing with an identity already present keeps the
record at its original registry position — the identity sequence of the
registry is unchanged — and a notification pass for any field then fires
callbacks as a subsequence of that unchanged registry order, so a
re-subscription never moves a listener later in notification order
relative to listeners registered after it. -/
theorem claim_C10 {V : Type} (st : Store V) (beh : Nat → Bool)
    (l : Listener) (d : V) (f : String)
    (h : l.num ∈ st.listeners.map Listener.num) :
    ((st.subscribe l).listeners.map Listener.num
      = st.listeners.map Listener.num)
    ∧ List.Sublist
        ((((st.subscribe l).dispatch beh ⟨f, d⟩).2.1).map Event.num)
        (st.listeners.map Listener.num) := by
  have h1 := subscribeList_nums_of_mem h
  refine ⟨h1, ?_⟩
  have h2 : ((st.subscribe l).dispatch beh ⟨f, d⟩).2.1
      = notifyLoop beh (((st.subscribe l).dispatch beh ⟨f, d⟩).1.state)
          (((st.subscribe l).dispatch beh ⟨f, d⟩).1.listeners.filter
            fun x => decide (x.type = f)) := rfl
  rw [h2, dispatch_listeners, notifyLoop_map_num]
  have hsub : ((st.subscribe l).listeners.filter fun x => decide (x.type = f)).Sublist
      (st.subscribe l).listeners := List.filter_sublist _
  have hmap := hsub.map Listener.num
  have h3 : (st.subscribe l).listeners.map Listener.num
      = st.listeners.map Listener.num := h1
  rw [h3] at hmap
  exact hmap

theorem claim_C10_witness :
    (Listener.num ⟨1, "g", 9⟩ ∈ ((Store.mk [("f", (0:Nat))] [("f", 0)]
        [⟨1, "f", 0⟩, ⟨2, "f", 1⟩]).listeners.map Listener.num))
    ∧ ((((Store.mk [("f", (0:Nat))] [("f", 0)]
          [⟨1, "f", 0⟩, ⟨2, "f", 1⟩]).subscribe ⟨1, "g", 9⟩).listeners.map
          Listener.num)
        = ((Store.mk [("f", (0:Nat))] [("f", 0)]
            [⟨1, "f", 0⟩, ⟨2, "f", 1⟩]).listeners.map Listener.num))
    ∧ List.Sublist
        (((((Store.mk [("f", (0:Nat))] [("f", 0)]
          [⟨1, "f", 0⟩, ⟨2, "f", 1⟩]).subscribe ⟨1, "g", 9⟩).dispatch
          (fun _ => false) ⟨"f", 4⟩).2.1).map Event.num)
        ((Store.mk [("f", (0:Nat))] [("f", 0)]
          [⟨1, "f", 0⟩, ⟨2, "f", 1⟩]).listeners.map Listener.num) :=
  ⟨by decide,
   (claim_C10 (Store.mk [("f", 0)] [("f", 0)] [⟨1, "f", 0⟩, ⟨2, "f", 1⟩])
      (fun _ => false) ⟨1, "g", 9⟩ 4 "f" (by decide)).1,
   (claim_C10 (Store.mk [("f", 0)] [("f", 0)] [⟨1, "f", 0⟩, ⟨2, "f", 1⟩])
      (fun _ => false) ⟨1, "g", 9⟩ 4 "f" (by decide)).2⟩

end MiApps
